import Mathlib

/-!
Verification of the poll/vote service and its storage layer.

The definitions below are a shallow embedding of the JavaScript sources:
`src/storage/memoryStorage.js` (the durable store over a single JSON
document), `src/services/userService.js` (the identity registry),
`src/services/pollService.js` (the use-case orchestration) and
`src/poll.js` (the Poll aggregate; a second aggregate variant folds
options to lower case, so the aggregate validator is parameterised by
the normalisation function).

JavaScript objects and Maps are embedded as association lists with
JS-object semantics: property read is first-match lookup, property write
replaces in place or appends, delete removes the key.  A poll's vote
ledger carries a tag recording whether it is a `Map` (the in-memory
form) or a plain record (the persisted form), because the sources branch
on `instanceof Map`.  Fallible operations return `Except`; `uuidv4()` is
modelled by passing the generated id as an argument.
-/

namespace PollApp

instance exceptDecEq {ε α : Type} [DecidableEq ε] [DecidableEq α] :
    DecidableEq (Except ε α) := fun a b =>
  match a, b with
  | Except.ok x, Except.ok y =>
      if h : x = y then isTrue (by rw [h]) else isFalse (fun hc => h (by cases hc; rfl))
  | Except.error x, Except.error y =>
      if h : x = y then isTrue (by rw [h]) else isFalse (fun hc => h (by cases hc; rfl))
  | Except.ok _, Except.error _ => isFalse (fun hc => Except.noConfusion hc)
  | Except.error _, Except.ok _ => isFalse (fun hc => Except.noConfusion hc)

/-- JS `String.prototype.trim`: strip leading and trailing whitespace.
(Lean's own `String.trim` is not kernel-reducible, so the embedding
carries its own executable version over the character list.) -/
def jsTrim (s : String) : String :=
  String.mk (((s.data.dropWhile Char.isWhitespace).reverse.dropWhile Char.isWhitespace).reverse)

/-- JS object property read: first entry with the given key, if any. -/
def findEntry {α : Type} : List (String × α) → String → Option α
  | [], _ => none
  | (k, v) :: rest, key => if k = key then some v else findEntry rest key

/-- JS object property write (`obj[key] = v` / `Map.set`): replace the
existing entry in place, or append a new one. -/
def insertEntry {α : Type} : List (String × α) → String → α → List (String × α)
  | [], key, v => [(key, v)]
  | (k, w) :: rest, key, v =>
      if k = key then (key, v) :: rest else (k, w) :: insertEntry rest key v

/-- JS `delete obj[key]`: drop the entry with the given key. -/
def removeEntry {α : Type} : List (String × α) → String → List (String × α)
  | [], _ => []
  | (k, w) :: rest, key => if k = key then rest else (k, w) :: removeEntry rest key

/-- A vote ledger value, tagged with its JS representation: a `Map`
(in-memory form) or a plain object (persisted, flat-record form).  The
sources branch on `instanceof Map`, so the tag is semantically relevant. -/
inductive VotesRep : Type
  | map (entries : List (String × Int))
  | record (fields : List (String × Int))
deriving DecidableEq, Repr

/-- A poll as held in the document (`memoryStorage.js`). -/
structure StoredPoll : Type where
  id : String
  question : String
  options : List String
  creator : String
  votes : VotesRep
deriving DecidableEq, Repr

/-- The durable document: `users` (a user object is just its username)
and `polls` keyed by poll id. -/
structure Document : Type where
  users : List String
  polls : List (String × StoredPoll)
deriving DecidableEq, Repr

/-- A poll in the persisted (serialized) shape: votes as a flat record. -/
structure RawPoll : Type where
  id : String
  question : String
  options : List String
  creator : String
  votes : List (String × Int)
deriving DecidableEq, Repr

/-- The persisted document shape produced by `JSON.parse`. -/
structure RawDoc : Type where
  users : List String
  polls : List (String × RawPoll)
deriving DecidableEq, Repr

/-- The state of the storage medium backing `storage.json`: the file may
be absent (`ENOENT`), present but not valid JSON, or hold a parsable
document. -/
inductive Medium : Type
  | absent
  | unparsable
  | content (raw : RawDoc)
deriving DecidableEq, Repr

/-- The empty document `{ users: {}, polls: {} }`. -/
def emptyDoc : Document := ⟨[], []⟩

/-- `readData`'s per-poll conversion: the flat-record ledger becomes a
`Map` (`new Map(Object.entries(votes))`). -/
def deserializePoll (p : RawPoll) : StoredPoll :=
  ⟨p.id, p.question, p.options, p.creator, VotesRep.map p.votes⟩

/-- `readData` (`memoryStorage.js`): absent file or invalid JSON yields
the empty document; a parsable document is returned with every poll's
ledger converted to `Map` form. -/
def readData : Medium → Document
  | Medium.absent => emptyDoc
  | Medium.unparsable => emptyDoc
  | Medium.content raw =>
      ⟨raw.users, raw.polls.map (fun e => (e.1, deserializePoll e.2))⟩

/-- `writeData`'s per-ledger conversion (`Object.fromEntries` on a Map;
a non-Map ledger is written as-is). -/
def serializeVotes : VotesRep → List (String × Int)
  | VotesRep.map l => l
  | VotesRep.record l => l

/-- `writeData`'s per-poll serialization: spread the poll and flatten
the ledger. -/
def serializePoll (p : StoredPoll) : RawPoll :=
  ⟨p.id, p.question, p.options, p.creator, serializeVotes p.votes⟩

/-- `writeData` (`memoryStorage.js`): persist the whole document,
overwriting the medium. -/
def writeData (d : Document) : Medium :=
  Medium.content ⟨d.users, d.polls.map (fun e => (e.1, serializePoll e.2))⟩

/-- Domain and storage errors, one constructor per thrown message. -/
inductive PollError : Type
  | requiredFields
  | pollNotFound (id : String)
  | userNotFound (u : String)
  | invalidOptionIndex
  | alreadyVoted (u : String)
  | notAuthorized (u id : String)
  | questionEmpty
  | tooFewOptions
  | optionsNotStrings
  | optionsMustBeNonEmptyStrings
  | optionsNotUnique
  | optionsEmpty
  | creatorMissing
  | creatorNotFound (u : String)
  | usernameEmpty
  | usernameTaken (u : String)
  | userAlreadyExists (u : String)
  | pollNotFoundForUpdate (id : String)
  | typeError
deriving DecidableEq, Repr

/-- `findUserByUsername` (`memoryStorage.js`): exact key lookup in the
users object; the stored user object is just its username. -/
def findUserByUsername (u : String) (d : Document) : Option String :=
  if u ∈ d.users then some u else none

/-- `createUser` (`memoryStorage.js`): fails if the username already
keys the users object, otherwise adds it and persists. -/
def createUserStore (u : String) (d : Document) :
    Except PollError (String × Document) :=
  if u ∈ d.users then Except.error (PollError.userAlreadyExists u)
  else Except.ok (u, ⟨d.users ++ [u], d.polls⟩)

/-- The poll fields handed to the store's `createPoll` (the service
builds this after validation; no `votes` field yet). -/
structure PollData : Type where
  id : String
  question : String
  options : List String
  creator : String
deriving DecidableEq, Repr

/-- `createPoll` (`memoryStorage.js`): spread the given fields, install
a fresh empty `Map` ledger, assign at `poll.id` (silently replacing any
existing entry) and persist.  It has no failure path. -/
def createPollStore (pd : PollData) (d : Document) : StoredPoll × Document :=
  let poll : StoredPoll := ⟨pd.id, pd.question, pd.options, pd.creator, VotesRep.map []⟩
  (poll, ⟨d.users, insertEntry d.polls pd.id poll⟩)

/-- A partial-fields patch for `updatePoll`; `none` means the field is
absent from the update object. -/
structure PollPatch : Type where
  id : Option String := none
  question : Option String := none
  options : Option (List String) := none
  creator : Option String := none
  votes : Option VotesRep := none
deriving DecidableEq, Repr

/-- The merge `{...poll, ...updatedPollData, votes: updatedPollData.votes
instanceof Map ? updatedPollData.votes : poll.votes}`: patched fields
override, and the ledger is kept unless the patch carries a `Map`. -/
def mergePatch (poll : StoredPoll) (patch : PollPatch) : StoredPoll :=
  { id := patch.id.getD poll.id
    question := patch.question.getD poll.question
    options := patch.options.getD poll.options
    creator := patch.creator.getD poll.creator
    votes :=
      match patch.votes with
      | some (VotesRep.map m) => VotesRep.map m
      | _ => poll.votes }

/-- `updatePoll` (`memoryStorage.js`): fails if the id is absent,
otherwise merges the patch, stores the merged poll and persists. -/
def updatePollStore (pollId : String) (patch : PollPatch) (d : Document) :
    Except PollError (StoredPoll × Document) :=
  match findEntry d.polls pollId with
  | none => Except.error (PollError.pollNotFoundForUpdate pollId)
  | some poll =>
      let updated := mergePatch poll patch
      Except.ok (updated, ⟨d.users, insertEntry d.polls pollId updated⟩)

/-- `deletePoll` (`memoryStorage.js`): remove the entry and return
`true` if present, return `false` otherwise. -/
def deletePollStore (pollId : String) (d : Document) : Bool × Document :=
  match findEntry d.polls pollId with
  | some _ => (true, ⟨d.users, removeEntry d.polls pollId⟩)
  | none => (false, d)

/-- A username argument as received by the identity registry: a string,
or some non-string value (anything failing `typeof === 'string'`,
including `undefined`/`null`). -/
inductive UserArg : Type
  | str (s : String)
  | nonstring
deriving DecidableEq, Repr

/-- `createUser` (`userService.js`): validation error when the argument
is falsy, non-string or whitespace-only; conflict when the trimmed name
is already stored; otherwise the trimmed name is stored via the store's
`createUser`. -/
def createUserService (username : UserArg) (d : Document) :
    Except PollError (String × Document) :=
  match username with
  | UserArg.nonstring => Except.error PollError.usernameEmpty
  | UserArg.str s =>
      if jsTrim s = "" then Except.error PollError.usernameEmpty
      else
        match findUserByUsername (jsTrim s) d with
        | some _ => Except.error (PollError.usernameTaken (jsTrim s))
        | none => createUserStore (jsTrim s) d

/-- `findUser` (`userService.js`): a direct passthrough to the store's
exact-match lookup; no trimming at this layer. -/
def findUserService (username : String) (d : Document) : Option String :=
  findUserByUsername username d

/-- An `optionIndex` argument as received by `vote`: `undefined`, an
integer JS number, or any other defined value (non-integer number,
string, ...) — the latter all fail
`typeof optionIndex !== 'number' || !Number.isInteger(optionIndex)`
identically. -/
inductive OptionIndexArg : Type
  | undef
  | int (i : Int)
  | nonint
deriving DecidableEq, Repr

/-- `vote` (`pollService.js`): required-arguments guard, then poll
lookup, then user lookup (on the trimmed username), then option-index
validation, then the double-vote check, then append-and-persist through
the store's `updatePoll`.  A non-`Map` ledger would make `votes.has`
throw a `TypeError` in JS. -/
def vote (pollId : String) (optionIndex : OptionIndexArg) (username : String)
    (d : Document) : Except PollError (StoredPoll × Document) :=
  if pollId = "" ∨ optionIndex = OptionIndexArg.undef ∨ username = "" then
    Except.error PollError.requiredFields
  else
    match findEntry d.polls pollId with
    | none => Except.error (PollError.pollNotFound pollId)
    | some poll =>
        match findUserByUsername (jsTrim username) d with
        | none => Except.error (PollError.userNotFound (jsTrim username))
        | some _ =>
            match optionIndex with
            | OptionIndexArg.undef => Except.error PollError.requiredFields
            | OptionIndexArg.nonint => Except.error PollError.invalidOptionIndex
            | OptionIndexArg.int i =>
                if i < 0 ∨ (poll.options.length : Int) ≤ i then
                  Except.error PollError.invalidOptionIndex
                else
                  match poll.votes with
                  | VotesRep.record _ => Except.error PollError.typeError
                  | VotesRep.map l =>
                      if (findEntry l (jsTrim username)).isSome then
                        Except.error (PollError.alreadyVoted (jsTrim username))
                      else
                        updatePollStore pollId
                          { votes := some (VotesRep.map (insertEntry l (jsTrim username) i)) } d

/-- The document state after a `vote` call: the updated document on
success; on a thrown error nothing was persisted, so the prior document
stands. -/
def voteResultDoc (pollId : String) (optionIndex : OptionIndexArg)
    (username : String) (d : Document) : Document :=
  match vote pollId optionIndex username d with
  | Except.ok r => r.2
  | Except.error _ => d

/-- `deletePoll` (`pollService.js`): required-arguments guard, poll
lookup, then the ownership check `poll.creator !== requestingUsername.trim()`,
then deletion through the store. -/
def deletePoll (pollId requestingUsername : String) (d : Document) :
    Except PollError (Bool × Document) :=
  if pollId = "" ∨ requestingUsername = "" then
    Except.error PollError.requiredFields
  else
    match findEntry d.polls pollId with
    | none => Except.error (PollError.pollNotFound pollId)
    | some poll =>
        if poll.creator ≠ jsTrim requestingUsername then
          Except.error (PollError.notAuthorized requestingUsername pollId)
        else
          Except.ok (deletePollStore pollId d)

/-- The document state after a `deletePoll` call (errors persist
nothing). -/
def deleteResultDoc (pollId requestingUsername : String) (d : Document) : Document :=
  match deletePoll pollId requestingUsername d with
  | Except.ok r => r.2
  | Except.error _ => d

/-- `getPollById` (`pollService.js`): passthrough to the store's lookup;
absent is not an error. -/
def getPollById (pollId : String) (d : Document) : Option StoredPoll :=
  findEntry d.polls pollId

/-- A poll-option (or question/creator) argument to the service
validator: a string or any non-string value. -/
inductive StrArg : Type
  | str (s : String)
  | nonstring
deriving DecidableEq, Repr

/-- An `options` argument: an array of values, or a non-array value. -/
inductive OptionsArg : Type
  | arr (l : List StrArg)
  | nonArray
deriving DecidableEq, Repr

/-- The test `!x || typeof x !== 'string' || x.trim().length === 0`
applied to a question, option or creator argument. -/
def strArgBad : StrArg → Bool
  | StrArg.nonstring => true
  | StrArg.str s => jsTrim s = ""

/-- `opt.trim()` on an option argument (only ever applied once all
options are known to be strings). -/
def trimStr : StrArg → String
  | StrArg.str s => jsTrim s
  | StrArg.nonstring => ""

/-- `validatePollData` (`pollService.js`): eager checks in source order
— question, array/length, non-empty strings, uniqueness of the trimmed
options (via `Set` size), creator present; the first violated rule
raises. -/
def validatePollData (question : StrArg) (options : OptionsArg) (creator : StrArg) :
    Option PollError :=
  if strArgBad question then some PollError.questionEmpty
  else
    match options with
    | OptionsArg.nonArray => some PollError.tooFewOptions
    | OptionsArg.arr l =>
        if l.length < 2 then some PollError.tooFewOptions
        else if l.any strArgBad then some PollError.optionsMustBeNonEmptyStrings
        else if (l.map trimStr).dedup.length ≠ (l.map trimStr).length then
          some PollError.optionsNotUnique
        else if strArgBad creator then some PollError.creatorMissing
        else none

/-- `createPoll` (`pollService.js`): validate, require the trimmed
creator to exist, then delegate to the store's `createPoll` with the
trimmed question and options and a freshly generated id (the id
generator is passed in as `newId`). -/
def createPollService (question : StrArg) (options : OptionsArg) (creator : StrArg)
    (newId : String) (d : Document) : Except PollError (StoredPoll × Document) :=
  match validatePollData question options creator with
  | some e => Except.error e
  | none =>
      match question, options, creator with
      | StrArg.str q, OptionsArg.arr l, StrArg.str c =>
          match findUserByUsername (jsTrim c) d with
          | none => Except.error (PollError.creatorNotFound (jsTrim c))
          | some _ =>
              Except.ok (createPollStore ⟨newId, jsTrim q, l.map trimStr, jsTrim c⟩ d)
      | _, _, _ => Except.error PollError.typeError

/-- The document state after a `createPoll` service call (errors persist
nothing). -/
def createPollResultDoc (question : StrArg) (options : OptionsArg) (creator : StrArg)
    (newId : String) (d : Document) : Document :=
  match createPollService question options creator newId d with
  | Except.ok r => r.2
  | Except.error _ => d

/-- The store's `createPoll` as a full medium-level cycle: read the
document, create the poll, write the document back (`memoryStorage.js`
performs exactly this read-modify-write). -/
def createPollMedium (pd : PollData) (m : Medium) : StoredPoll × Medium :=
  let r := createPollStore pd (readData m)
  (r.1, writeData r.2)

/-- A question argument to the Poll aggregate: a string or a nullish
value (`undefined`/`null`, short-circuited by `question?.trim()`). -/
inductive QArg : Type
  | str (s : String)
  | nullish
deriving DecidableEq, Repr

/-- `options.every(opt => typeof opt === 'string')` in the aggregate
validator. -/
def allStrings (l : List StrArg) : Bool :=
  l.all fun o => match o with | StrArg.str _ => true | StrArg.nonstring => false

/-- The aggregate's `trimmed` list: every option trimmed and folded by
the comparison policy `norm` (only computed once all options are
strings; the `nonstring` branch is never reached). -/
def aggTrimmed (norm : String → String) (l : List StrArg) : List String :=
  l.map (fun o => match o with | StrArg.str s => norm (jsTrim s) | StrArg.nonstring => "")

/-- `Poll.#validateInputs` (`poll.js`, and the lower-casing aggregate
variant): checks run eagerly in source order — question non-empty after
trim, array of length ≥ 2, all options strings, trimmed-and-normalised
options unique (via `Set` size), no trimmed option empty.  `norm` is the
comparison policy: the identity for the case-sensitive variant,
lower-casing for the case-insensitive one. -/
def validateInputs (norm : String → String) (question : QArg) (options : OptionsArg) :
    Option PollError :=
  if (match question with | QArg.nullish => true | QArg.str s => jsTrim s = "") then
    some PollError.questionEmpty
  else
    match options with
    | OptionsArg.nonArray => some PollError.tooFewOptions
    | OptionsArg.arr l =>
        if l.length < 2 then some PollError.tooFewOptions
        else if ¬ allStrings l then some PollError.optionsNotStrings
        else if (aggTrimmed norm l).dedup.length ≠ (aggTrimmed norm l).length then
          some PollError.optionsNotUnique
        else if (aggTrimmed norm l).any (· = "") then some PollError.optionsEmpty
        else none

/-- Rule 1 of aggregate validation: the question is nullish or empty
after trimming. -/
def ruleQuestionEmpty (q : QArg) : Prop :=
  q = QArg.nullish ∨ ∃ s, q = QArg.str s ∧ jsTrim s = ""

/-- Rule 2: the options are not an array of length at least 2. -/
def ruleTooFew (o : OptionsArg) : Prop :=
  o = OptionsArg.nonArray ∨ ∃ l, o = OptionsArg.arr l ∧ l.length < 2

/-- Rule 3: some option is not a string. -/
def ruleNonString (o : OptionsArg) : Prop :=
  ∃ l, o = OptionsArg.arr l ∧ StrArg.nonstring ∈ l

/-- Rule 4: the trimmed-and-normalised options are not pairwise
distinct. -/
def ruleNotUnique (norm : String → String) (o : OptionsArg) : Prop :=
  ∃ l, o = OptionsArg.arr l ∧ ¬ (aggTrimmed norm l).Nodup

/-- Rule 5: some option is empty after trimming. -/
def ruleEmptyOption (norm : String → String) (o : OptionsArg) : Prop :=
  ∃ l, o = OptionsArg.arr l ∧ "" ∈ aggTrimmed norm l

/-- A concrete poll: created by alice, bob has voted for option 1. -/
def exPoll : StoredPoll :=
  ⟨"p1", "Pick one?", ["X", "Y"], "alice", VotesRep.map [("bob", 1)]⟩

/-- A concrete document with three registered users and one poll. -/
def exDoc : Document :=
  ⟨["alice", "bob", "carol"], [("p1", exPoll)]⟩

theorem findEntry_insertEntry_self {α : Type} (l : List (String × α)) (k : String) (v : α) :
    findEntry (insertEntry l k v) k = some v := by
  induction l with
  | nil => simp [insertEntry, findEntry]
  | cons hd tl ih =>
      by_cases h : hd.1 = k
      · simp [insertEntry, findEntry, h]
      · simp [insertEntry, findEntry, h, ih]

theorem findEntry_insertEntry_ne {α : Type} (l : List (String × α)) (k k' : String) (v : α)
    (h : k' ≠ k) : findEntry (insertEntry l k v) k' = findEntry l k' := by
  induction l with
  | nil => simp [insertEntry, findEntry, Ne.symm h]
  | cons hd tl ih =>
      by_cases hhd : hd.1 = k
      · subst hhd
        simp [insertEntry, findEntry, Ne.symm h]
      · by_cases hhd' : hd.1 = k'
        · simp [insertEntry, findEntry, hhd, hhd', h]
        · simp [insertEntry, findEntry, hhd, hhd', ih]

theorem findEntry_map {α β : Type} (f : α → β) (l : List (String × α)) (k : String) :
    findEntry (l.map fun e => (e.1, f e.2)) k = (findEntry l k).map f := by
  induction l with
  | nil => simp [findEntry]
  | cons hd tl ih =>
      by_cases h : hd.1 = k
      · simp [findEntry, h]
      · simp [findEntry, h, ih]

theorem findEntry_removeEntry_self {α : Type} (l : List (String × α)) (k : String)
    (hnd : (l.map Prod.fst).Nodup) : findEntry (removeEntry l k) k = none := by
  induction l with
  | nil => simp [removeEntry, findEntry]
  | cons hd tl ih =>
      simp only [List.map_cons, List.nodup_cons] at hnd
      by_cases h : hd.1 = k
      · subst h
        cases hfind : findEntry tl hd.1 with
        | none => simp [removeEntry, findEntry, hfind]
        | some v =>
            exfalso
            apply hnd.1
            clear ih hnd
            induction tl with
            | nil => simp [findEntry] at hfind
            | cons hd2 tl2 ih2 =>
                by_cases h2 : hd2.1 = hd.1
                · simp [h2]
                · simp only [findEntry, h2, if_false] at hfind
                  simp [ih2 hfind]
      · simp [removeEntry, findEntry, h, ih hnd.2]

theorem dedup_length_ne_of_not_nodup {α : Type} [DecidableEq α] (l : List α)
    (h : ¬ l.Nodup) : l.dedup.length ≠ l.length := by
  intro hlen
  have hde : l.dedup = l := l.dedup_sublist.eq_of_length hlen
  exact h (hde ▸ l.nodup_dedup)

theorem not_nodup_of_dup_at {α : Type} (l : List α) (i j : ℕ) (hij : i < j)
    (hj : j < l.length) (heq : l.get ⟨i, lt_trans hij hj⟩ = l.get ⟨j, hj⟩) :
    ¬ l.Nodup := by
  intro hnd
  have := (List.Nodup.get_inj_iff hnd).mp heq
  simp only [Fin.mk.injEq] at this
  omega

theorem dedup_length_ne_iff_not_nodup {α : Type} [DecidableEq α] (l : List α) :
    l.dedup.length ≠ l.length ↔ ¬ l.Nodup := by
  constructor
  · intro h hnd
    exact h (by rw [List.dedup_eq_self.mpr hnd])
  · exact dedup_length_ne_of_not_nodup l

theorem allStrings_false_iff (l : List StrArg) :
    (¬ allStrings l = true) ↔ StrArg.nonstring ∈ l := by
  induction l with
  | nil => simp [allStrings]
  | cons hd tl ih =>
      cases hd with
      | str s => simp [allStrings, List.all_cons] at ih ⊢ ; simp [ih]
      | nonstring => simp [allStrings, List.all_cons]

/-- C5: `readAll` bootstraps transparently — an absent or unparsable
storage medium yields the empty document rather than a failure, and a
parsable document is returned with its users intact and every poll's
vote ledger converted from the flat-record form to the mapping (`Map`)
form, all other poll fields unchanged. -/
theorem readData_bootstraps_and_converts :
    readData Medium.absent = emptyDoc ∧
    readData Medium.unparsable = emptyDoc ∧
    ∀ raw : RawDoc,
      (readData (Medium.content raw)).users = raw.users ∧
      ∀ pid : String,
        findEntry (readData (Medium.content raw)).polls pid =
          (findEntry raw.polls pid).map (fun p =>
            ⟨p.id, p.question, p.options, p.creator, VotesRep.map p.votes⟩) := by
  refine ⟨rfl, rfl, fun raw => ⟨rfl, fun pid => ?_⟩⟩
  exact findEntry_map deserializePoll raw.polls pid

/-- C6: serialize-then-deserialize round-trip — creating a poll through
the store, persisting the document and reloading it yields, at the new
poll's id, a poll with an empty vote ledger whose id, question, options
and creator equal those of the poll that was created. -/
theorem createPoll_roundtrip (pd : PollData) (m : Medium) :
    (createPollMedium pd m).1 =
      ⟨pd.id, pd.question, pd.options, pd.creator, VotesRep.map []⟩ ∧
    findEntry (readData (createPollMedium pd m).2).polls pd.id =
      some ⟨pd.id, pd.question, pd.options, pd.creator, VotesRep.map []⟩ := by
  refine ⟨rfl, ?_⟩
  have hcomp :
      (readData (createPollMedium pd m).2).polls =
        (insertEntry (readData m).polls pd.id
            ⟨pd.id, pd.question, pd.options, pd.creator, VotesRep.map []⟩).map
          (fun e => (e.1, deserializePoll (serializePoll e.2))) := by
    simp [createPollMedium, createPollStore, writeData, readData, List.map_map,
      Function.comp]
  rw [hcomp, findEntry_map (fun p => deserializePoll (serializePoll p)),
    findEntry_insertEntry_self]
  rfl

/-- C10 (implicit): the store's `createPoll` has no duplicate-id guard —
even when the id already keys the polls collection it silently replaces
the existing poll with a fresh one carrying an empty vote ledger —
whereas the store's `createUser` fails when the username already exists. -/
theorem createPollStore_replaces_createUserStore_rejects
    (d : Document) (pd : PollData) (u : String) (old : StoredPoll)
    (_hpresent : findEntry d.polls pd.id = some old) (hu : u ∈ d.users) :
    (createPollStore pd d).1 =
      ⟨pd.id, pd.question, pd.options, pd.creator, VotesRep.map []⟩ ∧
    findEntry (createPollStore pd d).2.polls pd.id =
      some ⟨pd.id, pd.question, pd.options, pd.creator, VotesRep.map []⟩ ∧
    createUserStore u d = Except.error (PollError.userAlreadyExists u) := by
  refine ⟨rfl, ?_, ?_⟩
  · exact findEntry_insertEntry_self d.polls pd.id _
  · simp [createUserStore, hu]

/-- Witness for C10 at a concrete document: "p1" already exists and is
replaced with an empty ledger; registering "alice" again is rejected. -/
theorem createPollStore_replaces_witness :
    findEntry (createPollStore ⟨"p1", "New?", ["A", "B"], "bob"⟩ exDoc).2.polls "p1" =
      some ⟨"p1", "New?", ["A", "B"], "bob", VotesRep.map []⟩ :=
  (createPollStore_replaces_createUserStore_rejects exDoc ⟨"p1", "New?", ["A", "B"], "bob"⟩
    "alice" exPoll (by decide) (by decide)).2.1

/-- C8: the store's `updatePoll` fails when the poll id is absent;
otherwise the returned poll takes each patched field's new value, keeps
the prior value of every field the patch does not name, and keeps the
prior vote ledger unless the patch explicitly supplies a replacement
ledger in the mapping (`Map`) form. -/
theorem updatePollStore_merges (d : Document) (pid : String) (patch : PollPatch) :
    (findEntry d.polls pid = none →
      updatePollStore pid patch d =
        Except.error (PollError.pollNotFoundForUpdate pid)) ∧
    ∀ poll : StoredPoll, findEntry d.polls pid = some poll →
      updatePollStore pid patch d =
        Except.ok (mergePatch poll patch,
          ⟨d.users, insertEntry d.polls pid (mergePatch poll patch)⟩) ∧
      findEntry (insertEntry d.polls pid (mergePatch poll patch)) pid =
        some (mergePatch poll patch) ∧
      (mergePatch poll patch).id = patch.id.getD poll.id ∧
      (mergePatch poll patch).question = patch.question.getD poll.question ∧
      (mergePatch poll patch).options = patch.options.getD poll.options ∧
      (mergePatch poll patch).creator = patch.creator.getD poll.creator ∧
      (∀ m : List (String × Int), patch.votes = some (VotesRep.map m) →
        (mergePatch poll patch).votes = VotesRep.map m) ∧
      ((patch.votes = none ∨ ∃ r, patch.votes = some (VotesRep.record r)) →
        (mergePatch poll patch).votes = poll.votes) := by
  constructor
  · intro h
    simp [updatePollStore, h]
  · intro poll h
    refine ⟨by simp [updatePollStore, h], findEntry_insertEntry_self d.polls pid _,
      rfl, rfl, rfl, rfl, ?_, ?_⟩
    · intro m hm
      simp [mergePatch, hm]
    · rintro (hm | ⟨r, hm⟩) <;> simp [mergePatch, hm]

/-- Witness for C8: patching only the question of the stored poll keeps
its options, creator and vote ledger. -/
theorem updatePollStore_merges_witness :
    updatePollStore "p1" { question := some "Q2?" } exDoc =
      Except.ok (mergePatch exPoll { question := some "Q2?" },
        ⟨exDoc.users, insertEntry exDoc.polls "p1" (mergePatch exPoll { question := some "Q2?" })⟩) ∧
    (mergePatch exPoll { question := some "Q2?" }).votes = VotesRep.map [("bob", 1)] :=
  ⟨((updatePollStore_merges exDoc "p1" { question := some "Q2?" }).2 exPoll (by decide)).1,
   by decide⟩

/-- C9: the identity registry's `register` rejects a non-string or
empty/whitespace-only username with a validation error, rejects a
trimmed name that already exists with a conflict error, and otherwise
stores the trimmed name; `lookup` is an exact-match lookup with no
trimming, so a name absent as given is not found even when its trimmed
form is stored. -/
theorem register_trims_lookup_exact (d : Document) (s u : String) :
    (createUserService UserArg.nonstring d = Except.error PollError.usernameEmpty) ∧
    (jsTrim s = "" →
      createUserService (UserArg.str s) d = Except.error PollError.usernameEmpty) ∧
    (jsTrim s ≠ "" → jsTrim s ∈ d.users →
      createUserService (UserArg.str s) d =
        Except.error (PollError.usernameTaken (jsTrim s))) ∧
    (jsTrim s ≠ "" → jsTrim s ∉ d.users →
      createUserService (UserArg.str s) d =
        Except.ok (jsTrim s, ⟨d.users ++ [jsTrim s], d.polls⟩)) ∧
    (u ∉ d.users → findUserService u d = none) := by
  refine ⟨rfl, ?_, ?_, ?_, ?_⟩
  · intro h
    simp [createUserService, h]
  · intro hne hmem
    simp [createUserService, hne, findUserByUsername, hmem]
  · intro hne hmem
    simp [createUserService, hne, findUserByUsername, hmem, createUserStore]
  · intro hmem
    simp [findUserService, findUserByUsername, hmem]

/-- Witness for C9: registering " dave " stores "dave"; looking up
" alice " verbatim finds nothing although "alice" is stored. -/
theorem register_trims_lookup_exact_witness :
    createUserService (UserArg.str " dave ") exDoc =
      Except.ok (jsTrim " dave ", ⟨exDoc.users ++ [jsTrim " dave "], exDoc.polls⟩) ∧
    findUserService " alice " exDoc = none :=
  ⟨(register_trims_lookup_exact exDoc " dave " " alice ").2.2.2.1 (by decide) (by decide),
   (register_trims_lookup_exact exDoc " dave " " alice ").2.2.2.2 (by decide)⟩

/-- C1 counterexample: bob is registered and already keys the ledger of
poll "p1", yet a second `vote` call by bob with option index 5 (an index
outside the two options) fails with the invalid-option-index error, not
the already-voted error — the index validation precedes the double-vote
check. -/
theorem vote_second_any_index_counterexample :
    "bob" ∈ exDoc.users ∧
    findEntry exDoc.polls "p1" = some exPoll ∧
    exPoll.votes = VotesRep.map [("bob", 1)] ∧
    findEntry [("bob", (1 : Int))] "bob" = some 1 ∧
    vote "p1" (OptionIndexArg.int 5) "bob" exDoc =
      Except.error PollError.invalidOptionIndex ∧
    PollError.invalidOptionIndex ≠ PollError.alreadyVoted "bob" := by
  decide

/-- C1 (amended): a second `vote` call by a username already keying the
ledger, with any valid option index (an integer within
`[0, options.length)`), fails with the already-voted error, nothing is
persisted, and the ledger still maps that username to the index
recorded by the first vote. -/
theorem vote_second_already_voted (d : Document) (pid username : String)
    (poll : StoredPoll) (l : List (String × Int)) (i j : Int)
    (hpid : pid ≠ "") (hu : username ≠ "")
    (hpoll : findEntry d.polls pid = some poll)
    (hvotes : poll.votes = VotesRep.map l)
    (hreg : jsTrim username ∈ d.users)
    (hvoted : findEntry l (jsTrim username) = some j)
    (hi0 : 0 ≤ i) (hilen : i < (poll.options.length : Int)) :
    vote pid (OptionIndexArg.int i) username d =
      Except.error (PollError.alreadyVoted (jsTrim username)) ∧
    voteResultDoc pid (OptionIndexArg.int i) username d = d ∧
    getPollById pid (voteResultDoc pid (OptionIndexArg.int i) username d) = some poll ∧
    findEntry l (jsTrim username) = some j := by
  have hguard : ¬ (pid = "" ∨ OptionIndexArg.int i = OptionIndexArg.undef ∨ username = "") := by
    simp [hpid, hu]
  have hidx : ¬ (i < 0 ∨ (poll.options.length : Int) ≤ i) := by omega
  have hmain : vote pid (OptionIndexArg.int i) username d =
      Except.error (PollError.alreadyVoted (jsTrim username)) := by
    simp [vote, hguard, hpid, hu, hpoll, findUserByUsername, hreg, hidx, hvotes, hvoted]
  exact ⟨hmain, by simp [voteResultDoc, hmain],
    by simp [voteResultDoc, hmain, getPollById, hpoll], hvoted⟩

/-- Witness for C1 (amended) at the concrete document: bob's second vote
with the valid index 0 fails with the already-voted error. -/
theorem vote_second_already_voted_witness :
    vote "p1" (OptionIndexArg.int 0) "bob" exDoc =
      Except.error (PollError.alreadyVoted (jsTrim "bob")) :=
  (vote_second_already_voted exDoc "p1" "bob" exPoll [("bob", 1)] 0 1 (by decide)
    (by decide) (by decide) (by decide) (by decide) (by decide) (by decide)
    (by decide)).1

/-- C2 counterexample: carol is registered and not in the ledger of poll
"p1", and `undefined` is an optionIndex value that is not an integer,
yet `vote` fails with the required-arguments error, not the
invalid-option-index error. -/
theorem vote_undefined_index_counterexample :
    "carol" ∈ exDoc.users ∧
    findEntry exDoc.polls "p1" = some exPoll ∧
    findEntry [("bob", (1 : Int))] "carol" = none ∧
    vote "p1" OptionIndexArg.undef "carol" exDoc =
      Except.error PollError.requiredFields ∧
    PollError.requiredFields ≠ PollError.invalidOptionIndex := by
  decide

/-- C2 (amended): for a stored poll and a registered username not yet in
its ledger, a defined optionIndex that is not an integer or lies outside
`[0, options.length)` makes `vote` fail with the invalid-option-index
error and leaves the document (hence the ledger) unchanged; an undefined
optionIndex instead fails with the required-arguments error, also
changing nothing. -/
theorem vote_invalid_option_index (d : Document) (pid username : String)
    (poll : StoredPoll) (l : List (String × Int)) (oi : OptionIndexArg)
    (hpid : pid ≠ "") (hu : username ≠ "")
    (hpoll : findEntry d.polls pid = some poll)
    (_hvotes : poll.votes = VotesRep.map l)
    (hreg : jsTrim username ∈ d.users)
    (_hnot : findEntry l (jsTrim username) = none)
    (hbad : oi = OptionIndexArg.nonint ∨
      ∃ i : Int, oi = OptionIndexArg.int i ∧ (i < 0 ∨ (poll.options.length : Int) ≤ i)) :
    vote pid oi username d = Except.error PollError.invalidOptionIndex ∧
    voteResultDoc pid oi username d = d ∧
    getPollById pid (voteResultDoc pid oi username d) = some poll := by
  have hmain : vote pid oi username d = Except.error PollError.invalidOptionIndex := by
    rcases hbad with h | ⟨i, hoi, hrange⟩
    · subst h
      have hguard : ¬ (pid = "" ∨ OptionIndexArg.nonint = OptionIndexArg.undef ∨ username = "") := by
        simp [hpid, hu]
      simp [vote, hguard, hpid, hu, hpoll, findUserByUsername, hreg]
    · subst hoi
      have hguard : ¬ (pid = "" ∨ OptionIndexArg.int i = OptionIndexArg.undef ∨ username = "") := by
        simp [hpid, hu]
      simp [vote, hguard, hpid, hu, hpoll, findUserByUsername, hreg, hrange]
  exact ⟨hmain, by simp [voteResultDoc, hmain],
    by simp [voteResultDoc, hmain, getPollById, hpoll]⟩

/-- Witness for C2 (amended): carol's vote with out-of-range index 7
fails with the invalid-option-index error. -/
theorem vote_invalid_option_index_witness :
    vote "p1" (OptionIndexArg.int 7) "carol" exDoc =
      Except.error PollError.invalidOptionIndex :=
  (vote_invalid_option_index exDoc "p1" "carol" exPoll [("bob", 1)]
    (OptionIndexArg.int 7) (by decide) (by decide) (by decide) (by decide)
    (by decide) (by decide) (Or.inr ⟨7, rfl, by decide⟩)).1

/-- C3 counterexample: the requesting username " alice " differs from
the creator "alice" under exact comparison, yet `deletePoll` succeeds
(the code compares against the trimmed requester) and the poll is gone
afterwards — contradicting "fails not authorized and the poll remains". -/
theorem deletePoll_exact_match_counterexample :
    findEntry exDoc.polls "p1" = some exPoll ∧
    exPoll.creator = "alice" ∧
    " alice " ≠ "alice" ∧
    deletePoll "p1" " alice " exDoc = Except.ok (true, ⟨exDoc.users, []⟩) ∧
    getPollById "p1" (deleteResultDoc "p1" " alice " exDoc) = none := by
  decide

/-- C3 (amended): with non-empty arguments, `deletePoll` fails with the
poll-not-found error when the id does not resolve; fails with the
not-authorized error when the trimmed requesting username (no
case-folding) differs from the creator, the poll remaining retrievable;
and deletes, returns true and leaves the poll absent when the trimmed
requesting username equals the creator. -/
theorem deletePoll_ownership (d : Document) (pid req : String)
    (hpid : pid ≠ "") (hreq : req ≠ "")
    (hkeys : (d.polls.map Prod.fst).Nodup) :
    (findEntry d.polls pid = none →
      deletePoll pid req d = Except.error (PollError.pollNotFound pid)) ∧
    (∀ poll : StoredPoll, findEntry d.polls pid = some poll →
      poll.creator ≠ jsTrim req →
      deletePoll pid req d = Except.error (PollError.notAuthorized req pid) ∧
      getPollById pid (deleteResultDoc pid req d) = some poll) ∧
    (∀ poll : StoredPoll, findEntry d.polls pid = some poll →
      poll.creator = jsTrim req →
      deletePoll pid req d = Except.ok (true, ⟨d.users, removeEntry d.polls pid⟩) ∧
      getPollById pid (deleteResultDoc pid req d) = none) := by
  have hguard : ¬ (pid = "" ∨ req = "") := by simp [hpid, hreq]
  refine ⟨?_, ?_, ?_⟩
  · intro h
    simp [deletePoll, hguard, h]
  · intro poll h hne
    have hmain : deletePoll pid req d = Except.error (PollError.notAuthorized req pid) := by
      simp [deletePoll, hguard, h, hne]
    exact ⟨hmain, by simp [deleteResultDoc, hmain, getPollById, h]⟩
  · intro poll h heq
    have hmain : deletePoll pid req d = Except.ok (true, ⟨d.users, removeEntry d.polls pid⟩) := by
      simp [deletePoll, hguard, h, heq, deletePollStore]
    refine ⟨hmain, ?_⟩
    simp only [deleteResultDoc, hmain, getPollById]
    exact findEntry_removeEntry_self d.polls pid hkeys

/-- Witness for C3 (amended): bob (not the creator) cannot delete "p1". -/
theorem deletePoll_ownership_witness :
    deletePoll "p1" "bob" exDoc = Except.error (PollError.notAuthorized "bob" "p1") :=
  ((deletePoll_ownership exDoc "p1" "bob" (by decide) (by decide) (by decide)).2.1
    exPoll (by decide) (by decide)).1

/-- C4: a poll-creation attempt whose options contain a duplicate after
trimming fails — no poll is added to the stored document — and the
business error identifies the first violated rule: when neither the
question rule nor the non-empty-strings rule is violated first, the
error is the uniqueness error. -/
theorem createPoll_duplicate_options_rejected
    (d : Document) (q : StrArg) (l : List StrArg) (c : StrArg) (nid : String)
    (i j : ℕ) (s t : String) (hij : i < j) (hj : j < l.length)
    (his : l.get ⟨i, lt_trans hij hj⟩ = StrArg.str s)
    (hjt : l.get ⟨j, hj⟩ = StrArg.str t)
    (heq : jsTrim s = jsTrim t) :
    (∃ e : PollError, createPollService q (OptionsArg.arr l) c nid d = Except.error e) ∧
    createPollResultDoc q (OptionsArg.arr l) c nid d = d ∧
    (strArgBad q = false → (∀ o ∈ l, strArgBad o = false) →
      createPollService q (OptionsArg.arr l) c nid d =
        Except.error PollError.optionsNotUnique) := by
  have hlen2 : ¬ l.length < 2 := by omega
  have hdup : (l.map trimStr).dedup.length ≠ (l.map trimStr).length := by
    apply dedup_length_ne_of_not_nodup
    apply not_nodup_of_dup_at (l.map trimStr) i j hij (by simpa using hj)
    have h1 : (l.map trimStr).get ⟨i, by simpa using lt_trans hij hj⟩ =
        trimStr (l.get ⟨i, lt_trans hij hj⟩) := by
      simp [List.getElem_map]
    have h2 : (l.map trimStr).get ⟨j, by simpa using hj⟩ =
        trimStr (l.get ⟨j, hj⟩) := by
      simp [List.getElem_map]
    rw [h1, h2, his, hjt]
    simpa [trimStr] using heq
  by_cases hq : strArgBad q = true
  · have hval : validatePollData q (OptionsArg.arr l) c = some PollError.questionEmpty := by
      simp [validatePollData, hq]
    refine ⟨⟨PollError.questionEmpty, by simp [createPollService, hval]⟩,
      by simp [createPollResultDoc, createPollService, hval], ?_⟩
    intro hq0 _
    rw [hq0] at hq
    cases hq
  · by_cases hany : l.any strArgBad = true
    · have hval : validatePollData q (OptionsArg.arr l) c =
          some PollError.optionsMustBeNonEmptyStrings := by
        simp [validatePollData, hq, hlen2, hany]
      refine ⟨⟨PollError.optionsMustBeNonEmptyStrings, by simp [createPollService, hval]⟩,
        by simp [createPollResultDoc, createPollService, hval], ?_⟩
      intro _ hall
      rcases List.any_eq_true.mp hany with ⟨o, ho, hbo⟩
      rw [hall o ho] at hbo
      cases hbo
    · have hdup2 : (l.map trimStr).dedup.length ≠ l.length := by simpa using hdup
      have hval : validatePollData q (OptionsArg.arr l) c =
          some PollError.optionsNotUnique := by
        simp [validatePollData, hq, hlen2, hany, hdup2]
      exact ⟨⟨PollError.optionsNotUnique, by simp [createPollService, hval]⟩,
        by simp [createPollResultDoc, createPollService, hval],
        fun _ _ => by simp [createPollService, hval]⟩

/-- Witness for C4: options ["a", " a "] collide after trimming, so
creation fails with the uniqueness error and the document is unchanged. -/
theorem createPoll_duplicate_options_witness :
    createPollService (StrArg.str "Q?") (OptionsArg.arr [StrArg.str "a", StrArg.str " a "])
      (StrArg.str "alice") "p9" exDoc = Except.error PollError.optionsNotUnique ∧
    createPollResultDoc (StrArg.str "Q?") (OptionsArg.arr [StrArg.str "a", StrArg.str " a "])
      (StrArg.str "alice") "p9" exDoc = exDoc :=
  ⟨(createPoll_duplicate_options_rejected exDoc (StrArg.str "Q?")
      [StrArg.str "a", StrArg.str " a "] (StrArg.str "alice") "p9" 0 1 "a" " a "
      (by decide) (by decide) (by decide) (by decide) (by decide)).2.2 (by decide)
      (by decide),
   (createPoll_duplicate_options_rejected exDoc (StrArg.str "Q?")
      [StrArg.str "a", StrArg.str " a "] (StrArg.str "alice") "p9" 0 1 "a" " a "
      (by decide) (by decide) (by decide) (by decide) (by decide)).2.1⟩

theorem ruleQuestionEmpty_nullish : ruleQuestionEmpty QArg.nullish :=
  Or.inl rfl

theorem ruleQuestionEmpty_str_iff (s : String) :
    ruleQuestionEmpty (QArg.str s) ↔ jsTrim s = "" := by
  simp [ruleQuestionEmpty]

theorem ruleTooFew_nonArray : ruleTooFew OptionsArg.nonArray :=
  Or.inl rfl

theorem ruleTooFew_arr_iff (l : List StrArg) :
    ruleTooFew (OptionsArg.arr l) ↔ l.length < 2 := by
  simp [ruleTooFew]

theorem ruleNonString_nonArray : ¬ ruleNonString OptionsArg.nonArray := by
  simp [ruleNonString]

theorem ruleNonString_arr_iff (l : List StrArg) :
    ruleNonString (OptionsArg.arr l) ↔ StrArg.nonstring ∈ l := by
  simp [ruleNonString]

theorem ruleNotUnique_nonArray (norm : String → String) :
    ¬ ruleNotUnique norm OptionsArg.nonArray := by
  simp [ruleNotUnique]

theorem ruleNotUnique_arr_iff (norm : String → String) (l : List StrArg) :
    ruleNotUnique norm (OptionsArg.arr l) ↔ ¬ (aggTrimmed norm l).Nodup := by
  simp [ruleNotUnique]

theorem ruleEmptyOption_nonArray (norm : String → String) :
    ¬ ruleEmptyOption norm OptionsArg.nonArray := by
  simp [ruleEmptyOption]

theorem ruleEmptyOption_arr_iff (norm : String → String) (l : List StrArg) :
    ruleEmptyOption norm (OptionsArg.arr l) ↔ "" ∈ aggTrimmed norm l := by
  simp [ruleEmptyOption]

/-- C7: aggregate construction validates eagerly in a fixed order —
question non-empty after trim, then at least two options, then all
options string-typed, then options unique under the comparison policy
`norm`, then no option empty after trim — and the first violated rule
determines the error: each outcome of `validateInputs` is equivalent to
its rule being the first one violated (and success to no rule violated). -/
theorem validateInputs_first_violated_rule (norm : String → String)
    (q : QArg) (o : OptionsArg) :
    (validateInputs norm q o = some PollError.questionEmpty ↔ ruleQuestionEmpty q) ∧
    (validateInputs norm q o = some PollError.tooFewOptions ↔
      ¬ ruleQuestionEmpty q ∧ ruleTooFew o) ∧
    (validateInputs norm q o = some PollError.optionsNotStrings ↔
      ¬ ruleQuestionEmpty q ∧ ¬ ruleTooFew o ∧ ruleNonString o) ∧
    (validateInputs norm q o = some PollError.optionsNotUnique ↔
      ¬ ruleQuestionEmpty q ∧ ¬ ruleTooFew o ∧ ¬ ruleNonString o ∧
      ruleNotUnique norm o) ∧
    (validateInputs norm q o = some PollError.optionsEmpty ↔
      ¬ ruleQuestionEmpty q ∧ ¬ ruleTooFew o ∧ ¬ ruleNonString o ∧
      ¬ ruleNotUnique norm o ∧ ruleEmptyOption norm o) ∧
    (validateInputs norm q o = none ↔
      ¬ ruleQuestionEmpty q ∧ ¬ ruleTooFew o ∧ ¬ ruleNonString o ∧
      ¬ ruleNotUnique norm o ∧ ¬ ruleEmptyOption norm o) := by
  rcases q with s | _
  · by_cases hq : jsTrim s = ""
    · simp [validateInputs, hq, ruleQuestionEmpty_str_iff]
    · rcases o with l | _
      · by_cases h2 : l.length < 2
        · simp [validateInputs, hq, ruleQuestionEmpty_str_iff, ruleTooFew_arr_iff, h2]
        · by_cases h3 : allStrings l = true
          · have h3m : StrArg.nonstring ∉ l := fun hm =>
              (allStrings_false_iff l).mpr hm (by simp [h3])
            by_cases h4 : (aggTrimmed norm l).dedup.length = (aggTrimmed norm l).length
            · have h4n : (aggTrimmed norm l).Nodup := by
                by_contra hnd
                exact dedup_length_ne_of_not_nodup _ hnd h4
              by_cases h5 : "" ∈ aggTrimmed norm l
              · simp [validateInputs, hq, ruleQuestionEmpty_str_iff, ruleTooFew_arr_iff,
                  h2, h3, ruleNonString_arr_iff, h3m, ruleNotUnique_arr_iff, h4, h4n,
                  ruleEmptyOption_arr_iff, h5, List.any_eq_true]
              · simp [validateInputs, hq, ruleQuestionEmpty_str_iff, ruleTooFew_arr_iff,
                  h2, h3, ruleNonString_arr_iff, h3m, ruleNotUnique_arr_iff, h4, h4n,
                  ruleEmptyOption_arr_iff, h5, List.any_eq_true]
            · have h4n : ¬ (aggTrimmed norm l).Nodup := by
                intro hnd
                exact h4 (by rw [List.dedup_eq_self.mpr hnd])
              simp [validateInputs, hq, ruleQuestionEmpty_str_iff, ruleTooFew_arr_iff,
                h2, h3, ruleNonString_arr_iff, h3m, ruleNotUnique_arr_iff, h4, h4n]
          · have h3m : StrArg.nonstring ∈ l := (allStrings_false_iff l).mp (by simpa using h3)
            simp [validateInputs, hq, ruleQuestionEmpty_str_iff, ruleTooFew_arr_iff,
              h2, h3, ruleNonString_arr_iff, h3m]
      · simp [validateInputs, hq, ruleQuestionEmpty_str_iff, ruleTooFew_nonArray,
          ruleNonString_nonArray, ruleNotUnique_nonArray, ruleEmptyOption_nonArray]
  · simp [validateInputs, ruleQuestionEmpty_nullish]

end PollApp
